import Mathlib

/-!
Verification development for the Action_Recognition_CNN_LSTM repository.

The repository serves action-class predictions for short video clips.
The frontend (React) code is embedded directly from
`frontend/src/hooks/useActionRecognition.js`, `frontend/src/App.jsx` and
`frontend/src/api/actionRecognition.js`.  The backend inference pipeline
(FastAPI service: frame sampler, inference engine, prediction aggregator,
request orchestrator) is declared in the backend README but its Python
sources are not part of this tree, so those components are modelled from
the specification, as marked in the individual doc comments.
-/

namespace AR

/-- Class registry: the 11 UCF11 action classes, in index order, taken from
the `ACTION_ICONS` table in `frontend/src/App.jsx` (same order as the
backend README's class list). -/
def ACTION_CLASSES : List String :=
  ["basketball", "biking", "diving", "golf_swing", "horse_riding",
   "soccer_juggling", "swing", "tennis_swing", "trampoline_jumping",
   "volleyball_spiking", "walking"]

/-- Number of registered classes. -/
def NUM_CLASSES : Nat := ACTION_CLASSES.length

/-- Maximum upload size in bytes (100 MB), from the backend README
(`MAX_FILE_SIZE` = 104857600) and the frontend check `file.size > 100 * 1024 * 1024`. -/
def MAX_FILE_SIZE : Nat := 100 * 1024 * 1024

/-- Number of frames extracted per video (backend README: `NUM_FRAMES` = 16). -/
def NUM_FRAMES : Nat := 16

/-- Modelled from the spec: the Frame Sampler's index selection (backend
`video_processor.py` is not in the tree).  For target count `n` over `t`
available frames it picks `n` indices evenly spaced across `[0, t)`
with a deterministic nearest-integer stride, realised as `i * t / n`. -/
def sampleIndices (t n : Nat) : List Nat :=
  (List.range n).map (fun i => i * t / n)

/-- Modelled from the spec: the Frame Sampler's `sample` (backend
`video_processor.py` is not in the tree).  If `t >= n` it selects the
evenly spaced indices; if `t < n` it takes all `t` frames and pads by
repeating the last frame until the length is `n`. -/
def sample {α : Type} [Inhabited α] (frames : List α) (n : Nat) : List α :=
  if n ≤ frames.length then
    (sampleIndices frames.length n).map (fun i => frames.getD i default)
  else
    frames ++ List.replicate (n - frames.length) (frames.getLastD default)

/-- One ranked prediction entry `{ rank, classLabel, classIndex, confidence }`. -/
structure PredictionResult where
  rank : Nat
  classLabel : String
  classIndex : Nat
  confidence : ℚ
deriving DecidableEq, Inhabited

/-- Ranking order on class indices for a probability vector `pv`:
`i` comes before `j` when `i` has the strictly larger probability, or the
probabilities are equal and `i` is the lower class index. -/
def rankRel (pv : List ℚ) (i j : Nat) : Prop :=
  pv.getD j 0 < pv.getD i 0 ∨ (pv.getD i 0 = pv.getD j 0 ∧ i ≤ j)

instance (pv : List ℚ) : DecidableRel (rankRel pv) := fun i j =>
  inferInstanceAs (Decidable (pv.getD j 0 < pv.getD i 0 ∨ (pv.getD i 0 = pv.getD j 0 ∧ i ≤ j)))

instance (pv : List ℚ) : IsTotal Nat (rankRel pv) where
  total i j := by
    rcases lt_trichotomy (pv.getD i 0) (pv.getD j 0) with h | h | h
    · exact Or.inr (Or.inl h)
    · rcases Nat.le_total i j with hij | hji
      · exact Or.inl (Or.inr ⟨h, hij⟩)
      · exact Or.inr (Or.inr ⟨h.symm, hji⟩)
    · exact Or.inl (Or.inl h)

instance (pv : List ℚ) : IsTrans Nat (rankRel pv) where
  trans a b c hab hbc := by
    rcases hab with hab | ⟨eab, lab⟩
    · rcases hbc with hbc | ⟨ebc, _⟩
      · exact Or.inl (hbc.trans hab)
      · exact Or.inl (ebc ▸ hab)
    · rcases hbc with hbc | ⟨ebc, lbc⟩
      · exact Or.inl (eab ▸ hbc)
      · exact Or.inr ⟨eab.trans ebc, lab.trans lbc⟩

/-- Modelled from the spec: the Prediction Aggregator's clamp of `k` to
`[1, numClasses]` (backend sources are not in the tree). -/
def clampK (k : ℤ) (c : Nat) : Nat := (max 1 (min k (c : ℤ))).toNat

/-- Class indices `0 .. pv.length - 1` sorted by descending probability,
ties broken by lower class index. -/
def rankedIndices (pv : List ℚ) : List Nat :=
  List.insertionSort (rankRel pv) (List.range pv.length)

/-- Modelled from the spec: the Prediction Aggregator
`aggregate(ProbabilityVector, k) -> (best, topK)` (backend sources are not
in the tree).  It clamps `k`, ranks class indices by descending
probability with ties broken by lower index, labels each entry through the
Class Registry, and returns the rank-1 entry together with the top-`k` list. -/
def aggregate (pv : List ℚ) (k : ℤ) : PredictionResult × List PredictionResult :=
  let topIdx := (rankedIndices pv).take (clampK k pv.length)
  let topK := topIdx.mapIdx (fun r i =>
    { rank := r + 1, classLabel := ACTION_CLASSES.getD i "",
      classIndex := i, confidence := pv.getD i 0 })
  (topK.headD default, topK)

/-- Modelled from the spec: a strictly positive stand-in for the
exponential used by softmax, so that normalized outputs stay rational. -/
def posExp (x : ℚ) : ℚ := if 0 ≤ x then x + 1 else 1 / (1 - x)

/-- Modelled from the spec: softmax normalization — each raw score is sent
to a positive weight and divided by the total weight, so the outputs sum to 1. -/
def softmax (s : List ℚ) : List ℚ :=
  s.map (fun x => posExp x / (s.map posExp).sum)

/-- Error payload `{success: false, error, detail}` (backend README's
error shape; the constant `success: false` is implicit in the type). -/
structure ErrorDetail where
  error : String
  detail : String
deriving DecidableEq

/-- Modelled from the spec: the Inference Engine — a loaded/not-loaded
flag plus the pretrained network's per-class raw scores (one score per
registered class, by construction of the classification head). -/
structure InferenceEngine where
  loaded : Bool
  scores : List (List ℚ) → Fin NUM_CLASSES → ℚ

/-- Modelled from the spec: `predict(FrameBatch) -> ProbabilityVector`,
failing fast with `ModelNotLoaded` when the artifact has not loaded. -/
def predict (eng : InferenceEngine) (fb : List (List ℚ)) :
    Except ErrorDetail (List ℚ) :=
  if eng.loaded then .ok (softmax (List.ofFn (eng.scores fb)))
  else .error ⟨"ModelNotLoaded", "Model is not loaded. Please try again later."⟩

/-- One inference call with explicit engine-state threading: the call
returns its result together with the (unchanged) engine state, making the
spec's statelessness of inference visible in the embedding. -/
def predictCall (eng : InferenceEngine) (fb : List (List ℚ)) :
    Except ErrorDetail (List ℚ) × InferenceEngine :=
  (predict eng fb, eng)

/-- Health surface `{status, model_loaded}`. -/
structure Health where
  status : String
  model_loaded : Bool
deriving DecidableEq

/-- Modelled from the spec: the health endpoint reflects the Inference
Engine's readiness flag. -/
def healthOf (eng : InferenceEngine) : Health :=
  if eng.loaded then ⟨"healthy", true⟩ else ⟨"loading", false⟩

/-- An uploaded video as the orchestrator sees it: filename, size, the
container format found by the content probe, and the decodable frames
(`[]` models media from which no frame can be decoded). -/
structure Upload where
  filename : String
  sizeBytes : Nat
  containerFormat : String
  frames : List (List ℚ)

/-- Successful response body (the fields the claims are about). -/
structure PredictionResponse where
  prediction : PredictionResult
  topPredictions : List PredictionResult
  filename : String
deriving DecidableEq

/-- Units of work the orchestrator performs, recorded as a trace so that
order-of-work claims (size check before decode, temp cleanup last) are statable. -/
inductive WorkStep where
  | savedTemp
  | sizeChecked
  | formatChecked
  | decoded
  | sampled
  | inferred
  | deletedTemp
deriving DecidableEq

/-- Container-format allow-list from the backend README. -/
def allowedFormats : List String :=
  ["mp4", "avi", "mov", "mkv", "mpg", "mpeg", "webm"]

/-- Temporary file name scoped to one request. -/
def tempName (u : Upload) : String := "tmp_" ++ u.filename

/-- Modelled from the spec: the Request Orchestrator's
`handleRequest(uploadStream) -> PredictionResponse | ErrorDetail`
(backend `routes.py` is not in the tree).  It persists the upload to a
temporary location, gates on model readiness, then validates size and
format before any decode, decodes, samples `NUM_FRAMES` frames, runs
inference and aggregation, and deletes the temporary file on every exit
path.  The result carries the final temp store and the work trace. -/
def handleRequest (eng : InferenceEngine) (k : ℤ) (u : Upload) (store : List String) :
    Except ErrorDetail PredictionResponse × List String × List WorkStep :=
  let t := tempName u
  let store1 := t :: store
  if eng.loaded = false then
    (.error ⟨"ModelNotLoaded", "Model is not loaded. Please try again later."⟩,
     store1.erase t, [.savedTemp, .deletedTemp])
  else if MAX_FILE_SIZE < u.sizeBytes then
    (.error ⟨"FileTooLarge", "File size exceeds the 100MB limit."⟩,
     store1.erase t, [.savedTemp, .sizeChecked, .deletedTemp])
  else if (allowedFormats.contains u.containerFormat) = false then
    (.error ⟨"UnsupportedFormat", "Unsupported video format."⟩,
     store1.erase t, [.savedTemp, .sizeChecked, .formatChecked, .deletedTemp])
  else if u.frames.isEmpty then
    (.error ⟨"CorruptMedia", "Could not decode any frame from the video."⟩,
     store1.erase t, [.savedTemp, .sizeChecked, .formatChecked, .decoded, .deletedTemp])
  else
    match predict eng (sample u.frames NUM_FRAMES) with
    | .error e =>
        (.error e, store1.erase t,
         [.savedTemp, .sizeChecked, .formatChecked, .decoded, .sampled, .deletedTemp])
    | .ok pv =>
        let bk := aggregate pv k
        (.ok ⟨bk.1, bk.2, u.filename⟩, store1.erase t,
         [.savedTemp, .sizeChecked, .formatChecked, .decoded, .sampled, .inferred,
          .deletedTemp])

/-- Modelled from the spec: the batch orchestrator — each item runs the
single-item pipeline on the store left by its predecessor, and its outcome
(success or error) becomes that item's entry. -/
def handleBatch (eng : InferenceEngine) (k : ℤ) (store : List String) :
    List Upload → List (String × Except ErrorDetail PredictionResponse) × List String
  | [] => ([], store)
  | u :: rest =>
      let one := handleRequest eng k u store
      let restRes := handleBatch eng k one.2.1 rest
      ((u.filename, one.1) :: restRes.1, restRes.2)

/-- True on the success constructor of a batch item's outcome. -/
def outcomeOk : Except ErrorDetail PredictionResponse → Bool
  | .ok _ => true
  | .error _ => false

/-- The error name of a failed outcome, `""` on success. -/
def outcomeError : Except ErrorDetail PredictionResponse → String
  | .ok _ => ""
  | .error e => e.error

/-- Concrete loaded engine for the batch scenario (constant zero scores). -/
def demoEngine : InferenceEngine := ⟨true, fun _ _ => 0⟩

/-- Scenario upload 1: a small decodable mp4. -/
def demoGood1 : Upload := ⟨"good1.mp4", 1000, "mp4", [[0]]⟩

/-- Scenario upload 2: a corrupt mp4 (no decodable frame). -/
def demoCorrupt : Upload := ⟨"bad.mp4", 1000, "mp4", []⟩

/-- Scenario upload 3: another small decodable mp4. -/
def demoGood2 : Upload := ⟨"good2.mp4", 1000, "mp4", [[0]]⟩

/-- Response body as the frontend hook sees it (`data` in
`useActionRecognition.js`): a `success` flag, an optional `error` string
and the rest of the payload abstracted to one field. -/
structure RespData where
  success : Bool
  error : Option String
  payload : String
deriving DecidableEq

/-- A rejection value caught by the hook's `catch` block:
`err.response?.data?.detail`, `err.response?.data?.error` and
`err.message`, each possibly absent. -/
structure ErrObj where
  respDetail : Option String
  respError : Option String
  message : Option String
deriving DecidableEq

/-- How `actionRecognitionAPI.predictAction` settles: resolved with a
response body, or rejected with an error object. -/
inductive APIOutcome where
  | resolved (data : RespData)
  | rejected (e : ErrObj)
deriving DecidableEq

/-- The hook's state cells in `useActionRecognition`:
`loading`, `uploadProgress`, `result`, `error`. -/
structure HookState where
  loading : Bool
  uploadProgress : Nat
  result : Option RespData
  error : Option String
deriving DecidableEq

/-- How the hook's `predict` promise settles for its caller. -/
inductive PredictOutcome where
  | fulfilled (data : RespData)
  | rejectedWith (msg : String)
deriving DecidableEq

/-- JavaScript `a || b` on an optional string `a` with fallback `b`:
an absent or empty (falsy) `a` yields `b`. -/
def jsOr (a : Option String) (b : String) : String :=
  match a with
  | some s => if s = "" then b else s
  | none => b

/-- The hook's error-message chain
`err.response?.data?.detail || err.response?.data?.error || err.message || 'An error occurred'`. -/
def errorMessageOf (e : ErrObj) : String :=
  jsOr e.respDetail (jsOr e.respError (jsOr e.message "An error occurred"))

/-- Embedding of `predict` from `useActionRecognition.js` (lines 16-45):
it sets `loading`, clears `error`, `result` and `uploadProgress`, awaits
the API call, stores the result on `success`, otherwise throws
`data.error || 'Prediction failed'`; the `catch` block computes the error
message and re-throws it; the `finally` block clears `loading` and
`uploadProgress` on every path. -/
def predictHook (st : HookState) (outcome : APIOutcome) : HookState × PredictOutcome :=
  let st1 : HookState := { st with loading := true, error := none, result := none,
                                   uploadProgress := 0 }
  match outcome with
  | .resolved data =>
      if data.success then
        ({ st1 with result := some data, loading := false, uploadProgress := 0 },
         .fulfilled data)
      else
        let thrown : ErrObj := ⟨none, none, some (jsOr data.error "Prediction failed")⟩
        let em := errorMessageOf thrown
        ({ st1 with error := some em, loading := false, uploadProgress := 0 },
         .rejectedWith em)
  | .rejected e =>
      let em := errorMessageOf e
      ({ st1 with error := some em, loading := false, uploadProgress := 0 },
       .rejectedWith em)

/-- An API outcome on which the hook's `predict` rejects: a response with
`success` not true, or a thrown/network error. -/
def apiFails : APIOutcome → Prop
  | .resolved d => d.success = false
  | .rejected _ => True

instance : DecidablePred apiFails := fun o =>
  match o with
  | .resolved d => inferInstanceAs (Decidable (d.success = false))
  | .rejected _ => inferInstanceAs (Decidable True)

/-- A browser `File` as `handleFileSelect` reads it: `name`, `type`
(MIME string, embedded as `mimeType` since `type` is reserved here) and
`size` in bytes. -/
structure JSFile where
  name : String
  mimeType : String
  size : Nat
deriving DecidableEq

/-- The `validTypes` array in `App.jsx` `handleFileSelect`. -/
def validTypes : List String :=
  ["video/mp4", "video/avi", "video/mov", "video/quicktime",
   "video/x-msvideo", "video/mpeg", "video/webm"]

/-- Characters after the first `/`, on the character list. -/
def dropThroughSlash : List Char → List Char
  | [] => []
  | c :: rest => if c = '/' then rest else dropThroughSlash rest

/-- JavaScript `t.split('/')[1]` for the one-slash strings in
`validTypes`: the part of `t` after the first `/`. -/
def subtypePart (t : String) : String := String.mk (dropThroughSlash t.data)

/-- Whether `needle` is a leading piece of `hay`. -/
def listStartsWith : List Char → List Char → Bool
  | _, [] => true
  | [], _ :: _ => false
  | a :: as, b :: bs => a = b && listStartsWith as bs

/-- Whether `needle` occurs contiguously anywhere in `hay`. -/
def listContainsSub : List Char → List Char → Bool
  | [], needle => needle.isEmpty
  | h :: t, needle => listStartsWith (h :: t) needle || listContainsSub t needle

/-- JavaScript `hay.includes(needle)` on strings: substring containment. -/
def strIncludes (hay needle : String) : Bool :=
  listContainsSub hay.data needle.data

/-- The subtype tokens `type.split('/')[1]` ranges over in the
`validTypes.some(...)` check. -/
def allowTokens : List String :=
  ["mp4", "avi", "mov", "quicktime", "x-msvideo", "mpeg", "webm"]

/-- The file-type test in `handleFileSelect`:
`validTypes.some(type => file.type.includes(type.split('/')[1]))`. -/
def fileTypeValid (ty : String) : Bool :=
  validTypes.any (fun t => strIncludes ty (subtypePart t))

/-- Observable side effects of `handleFileSelect`. -/
inductive UIEffect where
  | alert (msg : String)
  | createdObjectURL (f : JSFile)
  | networkRequest (url : String)
deriving DecidableEq

/-- Component state touched by `handleFileSelect`:
`selectedFile`, `videoPreview` and the hook state `reset()` acts on. -/
structure UIState where
  selectedFile : Option JSFile
  videoPreview : Option String
  hook : HookState
deriving DecidableEq

/-- Abstraction of `URL.createObjectURL(file)`. -/
def objectURL (f : JSFile) : String := "blob:" ++ f.name

/-- The state `reset()` leaves the hook in: not loading, zero progress,
no result, no error. -/
def resetHook : HookState := ⟨false, 0, none, none⟩

/-- Embedding of `handleFileSelect` from `App.jsx` (lines 138-157): a
falsy argument returns immediately; a file whose MIME type matches no
allow-list subtype token alerts and returns; a file over 100 MB alerts
and returns; an accepted file becomes `selectedFile`, gets a preview URL
and resets the prior prediction state.  The function issues no network
request on any path. -/
def handleFileSelect (st : UIState) (file : Option JSFile) : UIState × List UIEffect :=
  match file with
  | none => (st, [])
  | some f =>
      if fileTypeValid f.mimeType = false then
        (st, [.alert "Please select a valid video file (MP4, AVI, MOV, MPEG, WebM)"])
      else if 100 * 1024 * 1024 < f.size then
        (st, [.alert "File size must be less than 100MB"])
      else
        ({ st with selectedFile := some f, videoPreview := some (objectURL f),
                   hook := resetHook },
         [.createdObjectURL f])

/-- Counterexample probability vector for the aggregator length claim:
all mass on class 0. -/
def cexPV : List ℚ := [1, 0, 0, 0, 0, 0, 0, 0, 0, 0, 0]

/-- Concrete probability-vector stand-in used by the aggregator witness. -/
def witnessPV : List ℚ := [3, 1, 4, 1, 5, 9, 2, 6, 5, 3, 5]

/-- Concrete oversized upload (one byte over the 100 MB limit). -/
def bigUpload : Upload := ⟨"big.mp4", 104857601, "mp4", [[0]]⟩

/-- Concrete engine whose model artifact has not loaded yet. -/
def coldEngine : InferenceEngine := ⟨false, fun _ _ => 0⟩

theorem sampleIndices_length (t n : Nat) : (sampleIndices t n).length = n := by
  simp [sampleIndices]

theorem sampleIndices_pairwise (t n : Nat) (h : n ≤ t) :
    (sampleIndices t n).Pairwise (· < ·) := by
  cases n with
  | zero => simp [sampleIndices]
  | succ m =>
    refine List.Pairwise.map _ ?_ (List.pairwise_lt_range _)
    intro a b hab
    have hstep : a * t + (m + 1) ≤ b * t := by
      have h1 : (a + 1) * t ≤ b * t := Nat.mul_le_mul_right t hab
      have h2 : a * t + t ≤ b * t := by
        simpa [Nat.succ_mul] using h1
      omega
    have h3 : a * t / (m + 1) + 1 ≤ b * t / (m + 1) := by
      have := Nat.div_le_div_right (c := m + 1) hstep
      simpa [Nat.add_div_right _ (Nat.succ_pos m)] using this
    omega

theorem sampleIndices_lt (t n : Nat) (h : n ≤ t) :
    ∀ i ∈ sampleIndices t n, i < t := by
  intro i hi
  simp only [sampleIndices, List.mem_map, List.mem_range] at hi
  obtain ⟨j, hj, rfl⟩ := hi
  have hn : 0 < n := by omega
  have ht : 0 < t := by omega
  rw [Nat.div_lt_iff_lt_mul hn]
  calc j * t < n * t := (Nat.mul_lt_mul_right ht).mpr hj
    _ = t * n := Nat.mul_comm n t

theorem sample_length {α : Type} [Inhabited α] (frames : List α) (n : Nat) :
    (sample frames n).length = n := by
  unfold sample
  split
  · simp [sampleIndices_length]
  · simp only [List.length_append, List.length_replicate]
    omega

/-- C1: for every video with `T` decodable frames and target count `N`,
`sample` returns exactly `N` frames; when `T >= N` it maps the `N` evenly
spaced, strictly increasing, in-range indices of `sampleIndices` (a
function of `(T, N)` alone, hence deterministic) over the frame list;
when `T < N` it takes all `T` frames and pads by repeating the last frame
until the length is `N`, never returning fewer than `N` frames. -/
theorem C1_sample_spec {α : Type} [Inhabited α] (frames : List α) (n : Nat)
    (hne : frames ≠ []) :
    (sample frames n).length = n ∧
    (n ≤ frames.length →
      sample frames n =
        (sampleIndices frames.length n).map (fun i => frames.getD i default) ∧
      (sampleIndices frames.length n).length = n ∧
      (sampleIndices frames.length n).Pairwise (· < ·) ∧
      ∀ i ∈ sampleIndices frames.length n, i < frames.length) ∧
    (frames.length < n →
      sample frames n =
        frames ++ List.replicate (n - frames.length) (frames.getLast hne)) := by
  refine ⟨sample_length frames n, fun h => ?_, fun h => ?_⟩
  · exact ⟨by simp [sample, h], sampleIndices_length _ _,
      sampleIndices_pairwise _ _ h, sampleIndices_lt _ _ h⟩
  · have hlast : frames.getLastD default = frames.getLast hne := by
      rw [List.getLastD_eq_getLast?, List.getLast?_eq_getLast frames hne]
      rfl
    rw [sample, if_neg (by omega), hlast]

theorem forall_mem_mapIdx {α β : Type} (P : β → Prop) :
    ∀ (l : List α) (f : Nat → α → β),
      (∀ i a, a ∈ l → P (f i a)) → ∀ b ∈ l.mapIdx f, P b
  | [], _, _ => by simp
  | a :: l, f, h => by
    rw [List.mapIdx_cons]
    intro b hb
    rcases List.mem_cons.mp hb with rfl | hb
    · exact h 0 a (List.mem_cons_self a l)
    · exact forall_mem_mapIdx P l _
        (fun i x hx => h (i + 1) x (List.mem_cons_of_mem a hx)) b hb

theorem pairwise_mapIdx {α β : Type} {R : α → α → Prop} {S : β → β → Prop} :
    ∀ (l : List α), l.Pairwise R → ∀ (f : Nat → α → β),
      (∀ i j a b, R a b → S (f i a) (f j b)) → (l.mapIdx f).Pairwise S
  | [], _, _, _ => by simp
  | a :: l, h, f, hf => by
    rw [List.mapIdx_cons]
    rcases List.pairwise_cons.mp h with ⟨ha, hl⟩
    refine List.Pairwise.cons ?_
      (pairwise_mapIdx l hl _ (fun i j x y hxy => hf (i + 1) (j + 1) x y hxy))
    exact forall_mem_mapIdx (fun b => S (f 0 a) b) l _
      (fun i x hx => hf 0 (i + 1) a x (ha x hx))

theorem one_le_clampK (k : ℤ) (c : Nat) : 1 ≤ clampK k c := by
  unfold clampK
  omega

theorem clampK_le (k : ℤ) (c : Nat) (hc : 1 ≤ c) : clampK k c ≤ c := by
  unfold clampK
  omega

theorem clampK_eq_min (k : ℤ) (c : Nat) (hc : 1 ≤ c) (hk : 1 ≤ k) :
    clampK k c = min k.toNat c := by
  unfold clampK
  omega

theorem rankedIndices_length (pv : List ℚ) :
    (rankedIndices pv).length = pv.length := by
  simp [rankedIndices, List.length_insertionSort]

theorem rankedIndices_sorted (pv : List ℚ) :
    List.Sorted (rankRel pv) (rankedIndices pv) :=
  List.sorted_insertionSort _ _

theorem aggregate_topK_length (pv : List ℚ) (k : ℤ) (hc : 1 ≤ pv.length) :
    (aggregate pv k).2.length = clampK k pv.length := by
  show (((rankedIndices pv).take (clampK k pv.length)).mapIdx _).length = _
  rw [List.length_mapIdx, List.length_take, rankedIndices_length]
  exact min_eq_left (clampK_le k pv.length hc)

/-- Witness for C1 at concrete inputs: three one-pixel frames with target
counts 2 (down-sampling branch) and 5 (padding branch). -/
theorem C1_sample_spec_witness :
    (([[(1 : ℚ)], [2], [3]] : List (List ℚ)) ≠ []) ∧
    (sample ([[(1 : ℚ)], [2], [3]] : List (List ℚ)) 5).length = 5 ∧
    (sampleIndices 3 2).Pairwise (· < ·) :=
  ⟨by simp,
   (C1_sample_spec ([[(1 : ℚ)], [2], [3]] : List (List ℚ)) 5 (by simp)).1,
   ((C1_sample_spec ([[(1 : ℚ)], [2], [3]] : List (List ℚ)) 2 (by simp)).2.1
      (by decide)).2.2.1⟩

/-- C2 (amended): for every ProbabilityVector of registry length and every
integer `k`, `aggregate` returns `topK` sorted by strictly non-increasing
confidence with ties broken by lower class index, `best` is the head of
`topK`, and `len(topK)` equals `k` clamped to `[1, numClasses]` — which is
`min(k, numClasses)` whenever `k >= 1`; an invalid `k` silently clamps
rather than erroring. -/
theorem C2_aggregate_spec (pv : List ℚ) (k : ℤ) (hpv : pv.length = NUM_CLASSES) :
    (aggregate pv k).2.Pairwise (fun a b => b.confidence < a.confidence ∨
      (a.confidence = b.confidence ∧ a.classIndex ≤ b.classIndex)) ∧
    (aggregate pv k).2.head? = some (aggregate pv k).1 ∧
    (aggregate pv k).2.length = clampK k NUM_CLASSES ∧
    (1 ≤ k → (aggregate pv k).2.length = min k.toNat NUM_CLASSES) := by
  have hc : 1 ≤ pv.length := by rw [hpv]; decide
  have hlen : (aggregate pv k).2.length = clampK k NUM_CLASSES := by
    rw [aggregate_topK_length pv k hc, hpv]
  refine ⟨?_, ?_, hlen, fun hk => ?_⟩
  · show (((rankedIndices pv).take (clampK k pv.length)).mapIdx _).Pairwise _
    have hs : ((rankedIndices pv).take (clampK k pv.length)).Pairwise (rankRel pv) :=
      List.Pairwise.sublist (List.take_sublist _ _) (rankedIndices_sorted pv)
    exact pairwise_mapIdx _ hs _ (fun i j a b hab => hab)
  · have hne : (aggregate pv k).2 ≠ [] := by
      intro hnil
      rw [hnil] at hlen
      have := one_le_clampK k NUM_CLASSES
      simp at hlen
      omega
    have hfst : (aggregate pv k).1 = (aggregate pv k).2.headD default := rfl
    cases hcase : (aggregate pv k).2 with
    | nil => exact absurd hcase hne
    | cons x xs => rw [hfst, hcase]; rfl
  · rw [hlen, clampK_eq_min k NUM_CLASSES (by decide) hk]

/-- Counterexample to C2 as stated: at the valid probability vector
`cexPV` (length 11, sum 1) and `k = 0`, the returned `topK` does not have
length `min(k, numClasses) = 0` — the clamp to `[1, numClasses]` makes it
length 1 instead, so the two length conditions of the claim contradict
each other for non-positive `k`. -/
theorem C2_counterexample :
    cexPV.sum = 1 ∧ cexPV.length = NUM_CLASSES ∧
    (aggregate cexPV 0).2.length = 1 ∧
    (aggregate cexPV 0).2.length ≠ (min (0 : ℤ) ((NUM_CLASSES : ℕ) : ℤ)).toNat := by
  refine ⟨by norm_num [cexPV], by decide, by decide, by decide⟩

/-- Witness for C2 (amended) at a concrete length-11 vector and `k = 3`. -/
theorem C2_aggregate_spec_witness :
    witnessPV.length = NUM_CLASSES ∧
    (aggregate witnessPV 3).2.length = clampK 3 NUM_CLASSES :=
  ⟨by decide, (C2_aggregate_spec witnessPV 3 (by decide)).2.2.1⟩

theorem handleRequest_store (eng : InferenceEngine) (k : ℤ) (u : Upload)
    (store : List String) :
    (handleRequest eng k u store).2.1 = store := by
  unfold handleRequest
  repeat' split
  all_goals simp [List.erase_cons_head]

theorem handleBatch_eq (eng : InferenceEngine) (k : ℤ) :
    ∀ (us : List Upload) (store : List String),
      handleBatch eng k store us =
        (us.map (fun u => (u.filename, (handleRequest eng k u store).1)), store)
  | [], _ => rfl
  | u :: rest, store => by
    rw [handleBatch, handleRequest_store, handleBatch_eq eng k rest store,
      List.map_cons]

/-- C3: for every input sequence of files, `handleBatch` returns exactly
one entry per submitted file, in input order, each entry being the
independent single-item pipeline outcome for that file (so one item's
failure cannot affect any other entry); in particular, in the concrete
batch of 3 where file 2 is corrupt, entries 1 and 3 are still successes
and entry 2 is the `CorruptMedia` ErrorDetail. -/
theorem C3_handleBatch_spec (eng : InferenceEngine) (k : ℤ) (store : List String)
    (us : List Upload) :
    handleBatch eng k store us =
      (us.map (fun u => (u.filename, (handleRequest eng k u store).1)), store) ∧
    (handleBatch demoEngine 3 [] [demoGood1, demoCorrupt, demoGood2]).1.map
        (fun p => (p.1, outcomeOk p.2, outcomeError p.2)) =
      [("good1.mp4", true, ""), ("bad.mp4", false, "CorruptMedia"),
       ("good2.mp4", true, "")] :=
  ⟨handleBatch_eq eng k us store, by decide⟩

/-- C4: when the service is up (model loaded), an upload over the 100 MB
limit is rejected with `ErrorDetail{error: "FileTooLarge"}` and the work
trace contains no decode, sampling or inference step. -/
theorem C4_file_too_large (eng : InferenceEngine) (k : ℤ) (u : Upload)
    (store : List String) (hl : eng.loaded = true) (hs : MAX_FILE_SIZE < u.sizeBytes) :
    (handleRequest eng k u store).1 =
      .error ⟨"FileTooLarge", "File size exceeds the 100MB limit."⟩ ∧
    WorkStep.decoded ∉ (handleRequest eng k u store).2.2 ∧
    WorkStep.sampled ∉ (handleRequest eng k u store).2.2 ∧
    WorkStep.inferred ∉ (handleRequest eng k u store).2.2 := by
  unfold handleRequest
  simp [hl, hs]

/-- Witness for C4: a 104857601-byte upload against a loaded engine. -/
theorem C4_file_too_large_witness :
    demoEngine.loaded = true ∧ MAX_FILE_SIZE < bigUpload.sizeBytes ∧
    (handleRequest demoEngine 3 bigUpload []).1 =
      .error ⟨"FileTooLarge", "File size exceeds the 100MB limit."⟩ :=
  ⟨rfl, by decide, (C4_file_too_large demoEngine 3 bigUpload [] rfl (by decide)).1⟩

/-- C6: every request arriving while the model artifact has not loaded
fails fast with `ErrorDetail{error: "ModelNotLoaded"}`, and the health
surface reports `model_loaded: false` in that state. -/
theorem C6_model_not_loaded (eng : InferenceEngine) (k : ℤ) (u : Upload)
    (store : List String) (h : eng.loaded = false) :
    (handleRequest eng k u store).1 =
      .error ⟨"ModelNotLoaded", "Model is not loaded. Please try again later."⟩ ∧
    (healthOf eng).model_loaded = false := by
  constructor
  · unfold handleRequest
    simp [h]
  · unfold healthOf
    simp [h]

/-- Witness for C6: a request against the not-yet-loaded engine. -/
theorem C6_model_not_loaded_witness :
    coldEngine.loaded = false ∧
    (handleRequest coldEngine 3 demoGood1 []).1 =
      .error ⟨"ModelNotLoaded", "Model is not loaded. Please try again later."⟩ ∧
    (healthOf coldEngine).model_loaded = false :=
  ⟨rfl, (C6_model_not_loaded coldEngine 3 demoGood1 [] rfl).1,
   (C6_model_not_loaded coldEngine 3 demoGood1 [] rfl).2⟩

/-- C7: on every exit path of `handleRequest` — success, validation
failure, extraction failure or inference failure — the request's
temporary file is released: the temp store after the call equals the
store before it, so the request's temp file does not remain. -/
theorem C7_resource_release (eng : InferenceEngine) (k : ℤ) (u : Upload)
    (store : List String) (h : tempName u ∉ store) :
    (handleRequest eng k u store).2.1 = store ∧
    tempName u ∉ (handleRequest eng k u store).2.1 := by
  have hs := handleRequest_store eng k u store
  exact ⟨hs, by rw [hs]; exact h⟩

/-- Witness for C7: a concrete request against an empty temp store. -/
theorem C7_resource_release_witness :
    tempName demoGood1 ∉ ([] : List String) ∧
    (handleRequest demoEngine 3 demoGood1 []).2.1 = [] ∧
    tempName demoGood1 ∉ (handleRequest demoEngine 3 demoGood1 []).2.1 :=
  ⟨by simp,
   (C7_resource_release demoEngine 3 demoGood1 [] (by simp)).1,
   (C7_resource_release demoEngine 3 demoGood1 [] (by simp)).2⟩

/-- C8: inference is deterministic with no per-call randomness and no
hidden state mutation — a second `predictCall` on the identical
FrameBatch, run in the engine state left by the first call, returns the
identical ProbabilityVector, and each call leaves the engine unchanged. -/
theorem C8_inference_deterministic (eng : InferenceEngine) (fb : List (List ℚ)) :
    (predictCall eng fb).1 = (predictCall (predictCall eng fb).2 fb).1 ∧
    (predictCall eng fb).2 = eng :=
  ⟨rfl, rfl⟩

theorem sum_map_div (l : List ℚ) (f : ℚ → ℚ) (c : ℚ) :
    (l.map (fun x => f x / c)).sum = (l.map f).sum / c := by
  induction l with
  | nil => simp
  | cons a l ih => simp [ih, add_div]

theorem posExp_pos (x : ℚ) : 0 < posExp x := by
  unfold posExp
  split
  · linarith
  · rename_i h
    have hx : x < 0 := lt_of_not_ge h
    exact div_pos one_pos (by linarith)

theorem softmax_length (s : List ℚ) : (softmax s).length = s.length := by
  simp [softmax]

theorem softmax_sum (s : List ℚ) (h : s ≠ []) : (softmax s).sum = 1 := by
  unfold softmax
  rw [sum_map_div]
  have hpos : 0 < (s.map posExp).sum := by
    refine List.sum_pos _ ?_ ?_
    · intro x hx
      obtain ⟨y, _, rfl⟩ := List.mem_map.mp hx
      exact posExp_pos y
    · simpa using h
  exact div_self (ne_of_gt hpos)

/-- C5: every ProbabilityVector the Inference Engine produces has length
equal to the number of registered classes (11), its entries sum to 1, and
each aggregated entry's label is the Class Registry entry at its class
index. -/
theorem C5_probability_vector (eng : InferenceEngine) (fb : List (List ℚ)) (k : ℤ)
    (hl : eng.loaded = true) :
    ∃ pv, predict eng fb = .ok pv ∧
      pv.length = ACTION_CLASSES.length ∧
      ACTION_CLASSES.length = 11 ∧
      pv.sum = 1 ∧
      ∀ r ∈ (aggregate pv k).2, r.classLabel = ACTION_CLASSES.getD r.classIndex "" := by
  refine ⟨softmax (List.ofFn (eng.scores fb)), ?_, ?_, by decide, ?_, ?_⟩
  · unfold predict
    rw [if_pos hl]
  · rw [softmax_length, List.length_ofFn]
    rfl
  · refine softmax_sum _ ?_
    intro hnil
    have := congrArg List.length hnil
    simp [List.length_ofFn] at this
  · intro r hr
    exact forall_mem_mapIdx
      (fun r => r.classLabel = ACTION_CLASSES.getD r.classIndex "") _ _
      (fun i a _ => rfl) r hr

/-- Witness for C5: the loaded constant-score engine on an empty frame
batch, with `k = 3`. -/
theorem C5_probability_vector_witness :
    demoEngine.loaded = true ∧
    ∃ pv, predict demoEngine [] = .ok pv ∧
      pv.length = ACTION_CLASSES.length ∧
      ACTION_CLASSES.length = 11 ∧
      pv.sum = 1 ∧
      ∀ r ∈ (aggregate pv 3).2, r.classLabel = ACTION_CLASSES.getD r.classIndex "" :=
  ⟨rfl, C5_probability_vector demoEngine [] 3 rfl⟩

theorem jsOr_ne_empty (a : Option String) (b : String) (hb : b ≠ "") :
    jsOr a b ≠ "" := by
  cases a with
  | none => simp [jsOr, hb]
  | some s =>
    by_cases h : s = ""
    · simp [jsOr, h, hb]
    · simp [jsOr, h]

theorem errorMessageOf_ne_empty (e : ErrObj) : errorMessageOf e ≠ "" :=
  jsOr_ne_empty _ _ (jsOr_ne_empty _ _ (jsOr_ne_empty _ _ (by decide)))

/-- C9: after the hook's `predict` settles on any API outcome, `loading`
is false and `uploadProgress` is 0; on every failure path (a response
whose `success` is not true, or a thrown/network error) `result` stays
`null`, `error` is set to a non-empty message string, and the promise
rejects with that same message. -/
theorem C9_predict_hook (st : HookState) (outcome : APIOutcome) :
    (predictHook st outcome).1.loading = false ∧
    (predictHook st outcome).1.uploadProgress = 0 ∧
    (apiFails outcome →
      (predictHook st outcome).1.result = none ∧
      ∃ m, (predictHook st outcome).1.error = some m ∧ m ≠ "" ∧
        (predictHook st outcome).2 = .rejectedWith m) := by
  cases outcome with
  | resolved d =>
    by_cases hd : d.success
    · refine ⟨by simp [predictHook, hd], by simp [predictHook, hd], fun hf => ?_⟩
      exact absurd hf (by simp [apiFails, hd])
    · refine ⟨by simp [predictHook, hd], by simp [predictHook, hd], fun _ => ?_⟩
      refine ⟨by simp [predictHook, hd], errorMessageOf ⟨none, none,
        some (jsOr d.error "Prediction failed")⟩, ?_, errorMessageOf_ne_empty _, ?_⟩
      · simp [predictHook, hd]
      · simp [predictHook, hd]
  | rejected e =>
    refine ⟨rfl, rfl, fun _ => ⟨rfl, errorMessageOf e, rfl, errorMessageOf_ne_empty e, rfl⟩⟩

/-- Witness for C9: a network rejection with every message field absent,
starting from the initial hook state. -/
theorem C9_predict_hook_witness :
    apiFails (.rejected ⟨none, none, none⟩) ∧
    (predictHook ⟨false, 0, none, none⟩ (.rejected ⟨none, none, none⟩)).1.loading = false ∧
    (predictHook ⟨false, 0, none, none⟩ (.rejected ⟨none, none, none⟩)).1.result = none :=
  ⟨trivial,
   (C9_predict_hook ⟨false, 0, none, none⟩ (.rejected ⟨none, none, none⟩)).1,
   ((C9_predict_hook ⟨false, 0, none, none⟩ (.rejected ⟨none, none, none⟩)).2.2
      trivial).1⟩

theorem fileTypeValid_eq_tokens (ty : String) :
    fileTypeValid ty = allowTokens.any (fun s => strIncludes ty s) := rfl

/-- C10: `handleFileSelect` leaves `selectedFile` and `videoPreview`
unchanged and issues no network request whenever its argument is falsy,
larger than 100 * 1024 * 1024 bytes, or has a MIME type containing none of
the allow-list subtype tokens; and exactly for an accepted file it sets
`selectedFile` to that file, sets `videoPreview` to its object URL, and
resets the prior prediction state — still issuing no network request. -/
theorem C10_handle_file_select (st : UIState) (file : Option JSFile) :
    ((file = none ∨ ∃ f, file = some f ∧
        (MAX_FILE_SIZE < f.size ∨
          allowTokens.all (fun s => !(strIncludes f.mimeType s)) = true)) →
      (handleFileSelect st file).1.selectedFile = st.selectedFile ∧
      (handleFileSelect st file).1.videoPreview = st.videoPreview ∧
      ∀ u, UIEffect.networkRequest u ∉ (handleFileSelect st file).2) ∧
    (∀ f, file = some f → f.size ≤ MAX_FILE_SIZE → fileTypeValid f.mimeType = true →
      (handleFileSelect st file).1.selectedFile = some f ∧
      (handleFileSelect st file).1.videoPreview = some (objectURL f) ∧
      (handleFileSelect st file).1.hook = resetHook ∧
      ∀ u, UIEffect.networkRequest u ∉ (handleFileSelect st file).2) := by
  constructor
  · rintro (rfl | ⟨f, rfl, hrej⟩)
    · exact ⟨rfl, rfl, by simp [handleFileSelect]⟩
    · by_cases hty : fileTypeValid f.mimeType
      · have hsz : MAX_FILE_SIZE < f.size := by
          rcases hrej with hsz | hall
          · exact hsz
          · exfalso
            rw [fileTypeValid_eq_tokens] at hty
            rcases List.any_eq_true.mp hty with ⟨s, hs, hinc⟩
            have := List.all_eq_true.mp hall s hs
            simp [hinc] at this
        have hMAX : (100 * 1024 * 1024 < f.size) = True := by
          simp [show (100 * 1024 * 1024 : Nat) = MAX_FILE_SIZE from rfl, hsz]
        refine ⟨?_, ?_, ?_⟩ <;>
          simp [handleFileSelect, hty, hMAX]
      · refine ⟨?_, ?_, ?_⟩ <;>
          simp [handleFileSelect, hty]
  · rintro f rfl hsz hty
    have hMAX : ¬ (100 * 1024 * 1024 < f.size) := by
      rw [show (100 * 1024 * 1024 : Nat) = MAX_FILE_SIZE from rfl]
      omega
    refine ⟨?_, ?_, ?_, ?_⟩ <;>
      simp [handleFileSelect, hty, hMAX]

/-- Witness for C10: a rejected text file and an accepted mp4 file,
starting from the empty component state. -/
theorem C10_handle_file_select_witness :
    (some (⟨"notes.txt", "text/plain", 5⟩ : JSFile) = none ∨
      ∃ f, some (⟨"notes.txt", "text/plain", 5⟩ : JSFile) = some f ∧
        (MAX_FILE_SIZE < f.size ∨
          allowTokens.all (fun s => !(strIncludes f.mimeType s)) = true)) ∧
    (handleFileSelect ⟨none, none, resetHook⟩
        (some ⟨"notes.txt", "text/plain", 5⟩)).1.selectedFile = none ∧
    (⟨"clip.mp4", "video/mp4", 5⟩ : JSFile).size ≤ MAX_FILE_SIZE ∧
    fileTypeValid (⟨"clip.mp4", "video/mp4", 5⟩ : JSFile).mimeType = true ∧
    (handleFileSelect ⟨none, none, resetHook⟩
        (some ⟨"clip.mp4", "video/mp4", 5⟩)).1.selectedFile =
      some ⟨"clip.mp4", "video/mp4", 5⟩ :=
  ⟨Or.inr ⟨⟨"notes.txt", "text/plain", 5⟩, rfl, Or.inr (by decide)⟩,
   ((C10_handle_file_select ⟨none, none, resetHook⟩
        (some ⟨"notes.txt", "text/plain", 5⟩)).1
      (Or.inr ⟨⟨"notes.txt", "text/plain", 5⟩, rfl, Or.inr (by decide)⟩)).1,
   by decide, by decide,
   ((C10_handle_file_select ⟨none, none, resetHook⟩
        (some ⟨"clip.mp4", "video/mp4", 5⟩)).2
      ⟨"clip.mp4", "video/mp4", 5⟩ rfl (by decide) (by decide)).1⟩

end AR
